import Mathlib

/-!
Verification development for the ArticleAutomation repository
(`blog_engine.py`, `dashboard.py`, `cron_runner.py`).

The Python sources are shallowly embedded as executable Lean functions.
Strings are embedded as `List Char`.  External collaborators (the LLM
completion service, JSON decoding, e-mail, GitHub) are passed in as explicit
function parameters, matching the spec's treatment of them as opaque
interfaces; everything the claims speak about (control flow, string
normalization, store updates, retry/backoff, selection policy) is embedded
concretely from the source.

Regular-expression operations from the source are translated to explicit
recursive string functions; each translation documents the regex it embeds
and the reasoning used to resolve the regex engine's leftmost/greedy/lazy
behaviour into a direct computation.

Python `re.sub` and the recursive scanners below are implemented with an
explicit fuel argument (initialised to the string length plus one) so that
they are structurally recursive and hence evaluable by `decide` / `rfl`;
every scanning step consumes at least one character of the remaining input,
so the fuel can never be exhausted before the input is.
-/

/-- Python strings are embedded as lists of characters. -/
abbrev Str := List Char

/-- Python's `\s` character class for ASCII text (what the source's regexes
use): space, tab, newline, carriage return, vertical tab, form feed. -/
def isPySpace (c : Char) : Bool :=
  c == ' ' || c == '\t' || c == '\n' || c == '\r' || c == '\x0b' || c == '\x0c'

/-- Python's `str.strip()` on ASCII text: drop leading and trailing
whitespace. -/
def trim (s : Str) : Str :=
  ((s.dropWhile isPySpace).reverse.dropWhile isPySpace).reverse

/-- Index of the first occurrence of `pat` as a contiguous substring of `s`
(what `re.search` with a literal pattern locates). -/
def firstIdxOfSub (pat : Str) : Str → Option Nat
  | [] => if pat <+: ([] : Str) then some 0 else none
  | c :: t => if pat <+: (c :: t) then some 0 else (firstIdxOfSub pat t).map (· + 1)

/-- End position (exclusive) of the last occurrence of `pat` as a contiguous
substring of `s`.  The rightmost occurrence is found by first searching the
tail. -/
def lastEndOfSub (pat : Str) : Str → Option Nat
  | [] => if pat = ([] : Str) then some 0 else none
  | c :: t =>
    match lastEndOfSub pat t with
    | some e => some (e + 1)
    | none => if pat <+: (c :: t) then some pat.length else none

/-- `pat` occurs somewhere inside `s`. -/
def containsSub (pat s : Str) : Bool :=
  (firstIdxOfSub pat s).isSome

/-- Embeds `re.sub(r"^```LBL?\s*", "", s, flags=re.MULTILINE)` where `LBL?`
is a literal label with an optional final letter (the source uses
`` ```html? `` in passes 1/3 and `` ```json? `` in passes 2/4).
`lbl` is the mandatory part (e.g. `` ```htm ``), `opt` the optional final
letter (e.g. `l`).  The `atLS` flag tracks whether the current scan position
is at a line start (`^` with MULTILINE matches at position 0 and right after
each newline); a deleted match is followed by a line start exactly when the
last character it consumed was a newline. -/
def subOpenGo (lbl : Str) (opt : Char) : Nat → Bool → Str → Str
  | 0, _, cs => cs
  | _, _, [] => []
  | fuel + 1, atLS, c :: t =>
    if atLS && lbl.isPrefixOf (c :: t) then
      let r1 := (c :: t).drop lbl.length
      let r2 := match r1 with
        | d :: u => if d = opt then u else r1
        | [] => []
      let ws := r2.takeWhile isPySpace
      let rest := r2.dropWhile isPySpace
      subOpenGo lbl opt fuel (ws.getLast? == some '\n') rest
    else
      c :: subOpenGo lbl opt fuel (c == '\n') t

/-- Run the opening-fence stripper over a whole string (the scan starts at a
line start). -/
def subOpenAll (lbl : Str) (opt : Char) (s : Str) : Str :=
  subOpenGo lbl opt (s.length + 1) true s

/-- Embeds `re.sub(r"```\s*$", "", s, flags=re.MULTILINE)`.
A match at a position requires three backticks followed by whitespace up to
an end-of-line boundary (`$` = end of string, or just before a newline).
With greedy `\s*` plus backtracking the deleted text is the backticks plus
the whitespace run up to (but excluding) the run's *last* newline when the
run does not reach the end of the string; if it does reach the end, the
whole run is deleted.  If the whitespace run neither reaches the end nor
contains a newline there is no match and the scan advances one character. -/
def subCloseGo : Nat → Str → Str
  | 0, cs => cs
  | _, [] => []
  | fuel + 1, c :: t =>
    if "```".data.isPrefixOf (c :: t) then
      let r := (c :: t).drop 3
      let run := r.takeWhile isPySpace
      let tail := r.dropWhile isPySpace
      if tail.isEmpty then
        []
      else if run.contains '\n' then
        subCloseGo fuel (('\n' :: (run.reverse.takeWhile (fun d => !(d == '\n'))).reverse) ++ tail)
      else
        c :: subCloseGo fuel t
    else
      c :: subCloseGo fuel t

/-- Run the closing-fence stripper over a whole string. -/
def subCloseAll (s : Str) : Str :=
  subCloseGo (s.length + 1) s

/-- `blog_engine.pass1_generate` / `pass3_fix` fence cleanup:
`re.sub(r"^```html?\s*", ...)` followed by `re.sub(r"```\s*$", ...)`. -/
def strip_html_fences (s : Str) : Str :=
  subCloseAll (subOpenAll "```htm".data 'l' s)

/-- `blog_engine.pass2_audit` strategy-3 / `pass4_social` fence cleanup:
`re.sub(r"^```json?\s*", ...)` followed by `re.sub(r"```\s*$", ...)`. -/
def strip_json_fences (s : Str) : Str :=
  subCloseAll (subOpenAll "```jso".data 'n' s)

/-- The document-start marker, lower-cased (searches are case-insensitive). -/
def docStartMarker : Str := "<!doctype html".data

/-- The document-end marker, lower-cased. -/
def docEndMarker : Str := "</html>".data

/-- Embeds `re.search(r"(<!DOCTYPE html.*</html>)", s, re.DOTALL | re.IGNORECASE)`
followed by `.group(1).strip()`.

The regex engine's behaviour resolves to: the match starts at the *first*
(case-insensitive) occurrence of the start marker — if the first occurrence
admits no closing marker after it then no later one does either, since any
end-marker occurrence after a later start-marker occurrence also lies after
the first — and the greedy `.*` extends to the *last* end-marker occurrence.
An end-marker occurrence after the start position necessarily starts beyond
the whole start marker (the start marker contains no `<` after position 0),
so the success condition is `i + 14 + 7 ≤ e` for first start index `i` and
last end-marker end `e`.  Positions are located on the lower-cased text and
the slice is taken from the original text, as `re.IGNORECASE` does. -/
def extract_document (s : Str) : Option Str :=
  let ls := s.map Char.toLower
  match firstIdxOfSub docStartMarker ls with
  | none => none
  | some i =>
    match lastEndOfSub docEndMarker ls with
    | none => none
    | some e =>
      if i + docStartMarker.length + docEndMarker.length ≤ e then
        some (trim ((s.drop i).take (e - i)))
      else none

/-- `blog_engine.pass1_generate` output normalization (lines 999-1010):
strip markdown fences, extract the `<!DOCTYPE html ... </html>` span if one
exists, otherwise fall back to the whole fence-stripped response, stripped. -/
def pass1_normalize (raw : Str) : Str :=
  let h := strip_html_fences raw
  match extract_document h with
  | some d => d
  | none => trim h

/-- The audit report (`AuditReport` in the spec): the dictionary produced by
`blog_engine.pass2_audit`.  Issue entries are embedded by their text.  A
missing `critical_issues` key and an empty list are identified: both are
falsy for the `audit.get("critical_issues")` tests in the source. -/
structure Audit where
  overall_grade : Str
  publish_ready : Bool
  critical_issues : List Str
  warnings : List Str
  suggestions : List Str
  raw_response : Option Str
deriving DecidableEq

/-- The synthetic warning text from `pass2_audit`'s fallback dictionary. -/
def parse_failure_warning : Str :=
  "Audit response could not be parsed as JSON — see raw_response below for details".data

/-- The fallback `AuditReport` built by `pass2_audit` when all three JSON
extraction strategies fail (lines 1068-1077). -/
def fallback_audit (raw : Str) : Audit :=
  { overall_grade := "UNKNOWN".data
  , publish_ready := false
  , critical_issues := []
  , warnings := [parse_failure_warning]
  , suggestions := []
  , raw_response := some (raw.take 3000) }

/-- Strategy 1 of `pass2_audit`:
`re.search(r'```json?\s*\n?(.*?)\n?\s*```', raw, re.DOTALL)`.

The regex resolves to: find the first occurrence of `` ```jso `` (the
pattern's mandatory literal prefix; `n?` makes the final letter optional),
skip the optional `n`, and capture up to the next `` ``` `` occurrence.  If
the first opener has no closing backticks after it then no opener does
(any later opener's own backticks would close the first), so the search
fails outright.  The capture differs from `group(1)` only by surrounding
whitespace, which the source immediately removes with `.strip()`; the
stripping is performed at the call site below, mirroring the source. -/
def fenced_json_block (raw : Str) : Option Str :=
  match firstIdxOfSub "```jso".data raw with
  | none => none
  | some p =>
    let afterLbl := raw.drop (p + 6)
    let afterOpt := match afterLbl with
      | d :: u => if d = 'n' then u else afterLbl
      | [] => []
    match firstIdxOfSub "```".data afterOpt with
    | none => none
    | some q => some (afterOpt.take q)

/-- Strategy 2 of `pass2_audit`:
`re.search(r'\{.*\}', raw, re.DOTALL)`, i.e. the span from the first
opening brace to the last closing brace, provided the latter comes after
the former. -/
def brace_span (raw : Str) : Option Str :=
  match firstIdxOfSub "\x7b".data raw, lastEndOfSub "\x7d".data raw with
  | some i, some e => if i + 2 ≤ e then some ((raw.drop i).take (e - i)) else none
  | _, _ => none

/-- Strategy 3 of `pass2_audit`: strip the raw text, remove fence markers,
strip again, and hand the remainder to the JSON decoder verbatim. -/
def strat3_clean (raw : Str) : Str :=
  trim (strip_json_fences (trim raw))

/-- `blog_engine.pass2_audit` response handling (lines 1036-1079), with the
JSON decoder abstracted as `pj : Str → Option Audit` (a `json.loads` whose
failure — `JSONDecodeError`, the only exception `json.loads` raises on a
string — is modelled as `none`).  The nested conditionals mirror the
source's `if audit is None` chain; totality of this function embeds the
"never raises" contract. -/
def pass2_parse (pj : Str → Option Audit) (raw : Str) : Audit :=
  let a1 : Option Audit :=
    match fenced_json_block raw with
    | some block => pj (trim block)
    | none => none
  match a1 with
  | some a => a
  | none =>
    let a2 : Option Audit :=
      match brace_span raw with
      | some span => pj span
      | none => none
    match a2 with
    | some a => a
    | none =>
      match pj (strat3_clean raw) with
      | some a => a
      | none => fallback_audit raw

/-- The spec's description of the parser (§4.4): the three extraction
strategies, in order. -/
def audit_strategies (raw : Str) : List (Option Str) :=
  [(fenced_json_block raw).map trim, brace_span raw, some (strat3_clean raw)]

/-- The spec's description of `parseStructured`: try the three strategies in
order, first successful parse wins, and degrade to the typed fallback when
all fail.  Written from the spec's words, for comparison with `pass2_parse`
(which is written from the source). -/
def audit_per_spec (pj : Str → Option Audit) (raw : Str) : Audit :=
  match ((audit_strategies raw).filterMap (fun o => o.bind pj)).head? with
  | some a => a
  | none => fallback_audit raw

/-- `blog_engine.pass3_fix` (lines 1086-1118) with the model response to the
fix prompt passed in as `fixResponse`.  An empty `critical_issues` list
returns the input immediately; otherwise the response is fence-stripped and
the document span extracted, falling back to the original input when no
complete document is found. -/
def pass3_fix (fixResponse html : Str) (audit : Audit) : Str :=
  if audit.critical_issues = [] then html
  else
    match extract_document (strip_html_fences fixResponse) with
    | some d => d
    | none => html

/-- A calendar entry (`PlannedPost`): the fields of the post dictionaries the
embedded functions consume. -/
structure Post where
  slug : Str
  day : Str
  cluster : Str
  title_en : Str
  title_es : Str
  keywords : Str
  cta : Str
deriving DecidableEq

/-- Association-list lookup, keyed by slug: the file-at-path probe
(`path.exists()` / `read_text`). -/
def lookupA {α : Type} (l : List (Str × α)) (k : Str) : Option α :=
  (l.find? (fun p => decide (p.1 = k))).map (·.2)

/-- Association-list overwrite, keyed by slug: `path.write_text` (an existing
file at the same path is replaced). -/
def updateA {α : Type} (l : List (Str × α)) (k : Str) (v : α) : List (Str × α) :=
  l.filter (fun p => !(decide (p.1 = k))) ++ [(k, v)]

/-- Association-list removal, keyed by slug: `path.unlink()`. -/
def removeA {α : Type} (l : List (Str × α)) (k : Str) : List (Str × α) :=
  l.filter (fun p => !(decide (p.1 = k)))

/-- The file-system state the embedded functions read and write: the per-slug
artifact files of the drafts store (`{slug}.html`, `{slug}_audit.json`,
`{slug}_social.json`, `{slug}_card.html`, `{slug}_sitemap.xml`), the
approved store (`{slug}.html`) and the pre-generated store (`{slug}.html`). -/
structure PipeState where
  drafts : List (Str × Str)
  draftAudits : List (Str × Audit)
  draftSocials : List (Str × Str)
  draftCards : List (Str × Str)
  draftSitemaps : List (Str × Str)
  approved : List (Str × Str)
  preGen : List (Str × Str)
deriving DecidableEq

/-- `drafts/{slug}.html` or `approved/{slug}.html` exists: the existence
check of both slot resolvers. -/
def artifact_exists (s : PipeState) (slug : Str) : Bool :=
  (lookupA s.drafts slug).isSome || (lookupA s.approved slug).isSome

/-- `blog_engine.get_next_ungenerated_post` (lines 850-858): scan the
calendar's posts in order and return the first with neither a draft nor an
approved artifact. -/
def get_next_ungenerated_post (s : PipeState) : List Post → Option Post
  | [] => none
  | p :: rest =>
    if artifact_exists s p.slug then get_next_ungenerated_post s rest else some p

/-- The inner loop of `blog_engine.get_next_scheduled_post`: scan the posts
in order, and for each whose `day` equals today's day name apply the same
existence check. -/
def scanScheduled (dayName : Str) (s : PipeState) : List Post → Option Post
  | [] => none
  | p :: rest =>
    if p.day = dayName then
      if artifact_exists s p.slug then scanScheduled dayName s rest else some p
    else scanScheduled dayName s rest

/-- The `day_map` membership test of `get_next_scheduled_post` (line 835):
only `monday`, `wednesday` and `friday` are mapped. -/
def weekday_in_map (d : Str) : Bool :=
  decide (d = "monday".data) || decide (d = "wednesday".data) || decide (d = "friday".data)

/-- `blog_engine.get_next_scheduled_post` (lines 830-847), with today's
lower-cased day name passed in (the source computes it from
`datetime.now()`): return `None` outright when the day name is not in
`day_map`, otherwise scan day-matching posts with the existence check. -/
def get_next_scheduled_post (dayName : Str) (s : PipeState) (cal : List Post) : Option Post :=
  if weekday_in_map dayName then scanScheduled dayName s cal else none

/-- The spec's description of the resolver (§4.1, first part): the first
calendar post whose slug has neither artifact.  Written from the spec's
words, for comparison with the source function. -/
def ungenerated_per_spec (s : PipeState) (cal : List Post) : Option Post :=
  (cal.filter (fun p => !(artifact_exists s p.slug))).head?

/-- The spec's description of the day-filtered resolver variant (§4.1,
second part): restrict the candidate set to posts whose `day` matches the
current weekday, then apply the same existence check.  Written from the
spec's words, for comparison with the source function. -/
def day_filtered_per_spec (dayName : Str) (s : PipeState) (cal : List Post) : Option Post :=
  ((cal.filter (fun p => decide (p.day = dayName))).filter
    (fun p => !(artifact_exists s p.slug))).head?

/-- An entry of `HERO_IMAGE_POOL`. -/
structure HeroImage where
  id : Str
  url : Str
  alt : Str
  themes : List Str
deriving DecidableEq

/-- First candidate tier of `select_hero_image`: images themed for the
post's category and not already used. -/
def themed_unused (pool : List HeroImage) (used : List Str) (category : Str) : List HeroImage :=
  pool.filter (fun img => img.themes.contains category && !(used.contains img.id))

/-- Second candidate tier: any image not already used. -/
def any_unused (pool : List HeroImage) (used : List Str) : List HeroImage :=
  pool.filter (fun img => !(used.contains img.id))

/-- Third candidate tier: any image themed for the category, reuse allowed. -/
def all_themed (pool : List HeroImage) (category : Str) : List HeroImage :=
  pool.filter (fun img => img.themes.contains category)

/-- `blog_engine.select_hero_image` (lines 904-945), with the MD5-based slug
hash abstracted as `hash : Str → Nat` (`int(hashlib.md5(slug).hexdigest(), 16)`)
and the used-image set passed in (the source recomputes it by scanning the
drafts and approved folders; see `scan_used_images`).  Each tier indexes by
the hash reduced modulo the tier size; an empty pool (where the source's
final `HERO_IMAGE_POOL[idx]` would fail) is modelled as `none`. -/
def select_hero_image (hash : Str → Nat) (pool : List HeroImage) (used : List Str)
    (category slug : Str) : Option HeroImage :=
  let themed := themed_unused pool used category
  if !themed.isEmpty then themed.get? (hash slug % themed.length)
  else
    let unused := any_unused pool used
    if !unused.isEmpty then unused.get? (hash slug % unused.length)
    else
      let allThemed := all_themed pool category
      if !allThemed.isEmpty then allThemed.get? (hash slug % allThemed.length)
      else pool.get? (hash slug % pool.length)

/-- The used-image discovery step of `select_hero_image` (lines 911-922):
an image is used when its URL occurs in some drafted or approved document. -/
def scan_used_images (docs : List Str) (pool : List HeroImage) : List Str :=
  (pool.filter (fun img => docs.any (fun d => containsSub img.url d))).map (·.id)

/-- The spec's description of the selector (§4.2): choose the first
non-empty candidate tier, in the stated priority order, and index it by the
stable slug hash modulo its size.  Written from the spec's words, for
comparison with the source function. -/
def select_per_spec (hash : Str → Nat) (pool : List HeroImage) (used : List Str)
    (category slug : Str) : Option HeroImage :=
  match [themed_unused pool used category, any_unused pool used,
         all_themed pool category, pool].find? (fun l => !l.isEmpty) with
  | some tier => tier.get? (hash slug % tier.length)
  | none => pool.get? (hash slug % pool.length)

/-- One outcome of a `client.messages.create` call: a text response, an
`anthropic.RateLimitError`, or another `anthropic.APIError`. -/
inductive ApiOutcome where
  | success (text : Str)
  | rateLimited
  | apiError
deriving DecidableEq

/-- Observable behaviour of one `call_claude` invocation: how many API calls
were made, which `time.sleep` delays ran (in seconds), and the result
(`none` models the exception propagating to the caller). -/
structure RetryTrace where
  calls : Nat
  sleeps : List Nat
  result : Option Str
deriving DecidableEq

/-- The retry loop of `blog_engine.call_claude` (lines 559-574), with the
API modelled as a function from the attempt index to its outcome.
`fuel` counts the attempts remaining out of `max_retries`; on a rate limit
the loop sleeps `60 * (attempt + 1)` seconds and, when it was the last
attempt (`attempt == max_retries - 1`, i.e. `fuel = 1`), re-raises. -/
def retry_loop (service : Nat → ApiOutcome) : Nat → Nat → List Nat → RetryTrace
  | 0, attempt, sleeps => { calls := attempt, sleeps := sleeps, result := none }
  | fuel + 1, attempt, sleeps =>
    match service attempt with
    | ApiOutcome.success t => { calls := attempt + 1, sleeps := sleeps, result := some t }
    | ApiOutcome.apiError => { calls := attempt + 1, sleeps := sleeps, result := none }
    | ApiOutcome.rateLimited =>
      match fuel with
      | 0 => { calls := attempt + 1, sleeps := sleeps ++ [60 * (attempt + 1)], result := none }
      | f + 1 => retry_loop service (f + 1) (attempt + 1) (sleeps ++ [60 * (attempt + 1)])

/-- `blog_engine.call_claude`'s retry behaviour: `max_retries = 3`, starting
at attempt 0 with no sleeps performed. -/
def call_claude (service : Nat → ApiOutcome) : RetryTrace :=
  retry_loop service 3 0 []

/-- Observable trace of one `_run_pipeline` run: the provenance decision,
the audit persisted right after Pass 2, whether Pass 3 was invoked, and the
audit and document current at the notification step. -/
structure RunTrace where
  preAuthored : Bool
  firstAudit : Audit
  fixInvoked : Bool
  finalAudit : Audit
  finalHtml : Str
deriving DecidableEq

/-- `blog_engine._run_pipeline` (lines 1428-1549).  External collaborators
are passed in: `auditOf` is Pass 2 as a whole (`pass2_audit`, an API call
followed by the response parsing verified separately as `pass2_parse`),
`genOut` is Pass 1's raw API response, `fixOut` is Pass 3's raw API
response, and `cardOf` / `sitemapOf` are the pure string templates
`generate_blog_card_html` / `generate_sitemap_entry`.  The steps, in source
order: provenance check against the pre-generated store; Pass 1 (skipped
for pre-authored documents); draft write; Pass 2 and audit write; the fix
gate — critical issues present *and* not pre-authored — with draft
rewrite, re-audit and audit overwrite when it fires; Pass 4 skipped in the
source; card and sitemap writes; e-mail notification (failure is caught,
so it does not affect the stores). -/
def run_pipeline (auditOf : Str → Audit) (genOut fixOut : Str)
    (cardOf sitemapOf : Post → Str) (post : Post) (s : PipeState) :
    PipeState × RunTrace :=
  let pre := lookupA s.preGen post.slug
  let isPreGen := pre.isSome
  let html0 := match pre with
    | some doc => doc
    | none => pass1_normalize genOut
  let s1 : PipeState := { s with drafts := updateA s.drafts post.slug html0 }
  let audit1 := auditOf html0
  let s2 : PipeState := { s1 with draftAudits := updateA s1.draftAudits post.slug audit1 }
  let doFix : Bool := decide (audit1.critical_issues ≠ []) && !isPreGen
  let html1 := if doFix then pass3_fix fixOut html0 audit1 else html0
  let s3 : PipeState :=
    if doFix then { s2 with drafts := updateA s2.drafts post.slug html1 } else s2
  let audit2 := if doFix then auditOf html1 else audit1
  let s4 : PipeState :=
    if doFix then { s3 with draftAudits := updateA s3.draftAudits post.slug audit2 } else s3
  let s5 : PipeState := { s4 with
    draftCards := updateA s4.draftCards post.slug (cardOf post)
  , draftSitemaps := updateA s4.draftSitemaps post.slug (sitemapOf post) }
  (s5, { preAuthored := isPreGen, firstAudit := audit1, fixInvoked := doFix
       , finalAudit := audit2, finalHtml := html1 })

/-- `blog_engine.run_scheduled_pipeline` (lines 1365-1375): pick the next
ungenerated post — the source uses `get_next_ungenerated_post`, not the
day-filtered variant — and run the pipeline on it; do nothing when every
calendar post is generated. -/
def run_scheduled_pipeline (auditOf : Str → Audit) (genOut fixOut : Str)
    (cardOf sitemapOf : Post → Str) (cal : List Post) (s : PipeState) : PipeState :=
  match get_next_ungenerated_post s cal with
  | none => s
  | some post => (run_pipeline auditOf genOut fixOut cardOf sitemapOf post s).1

/-- `blog_engine.run_manual_pipeline` (lines 1378-1388): the 'Generate Now'
trigger; its body is identical to `run_scheduled_pipeline`. -/
def run_manual_pipeline (auditOf : Str → Audit) (genOut fixOut : Str)
    (cardOf sitemapOf : Post → Str) (cal : List Post) (s : PipeState) : PipeState :=
  match get_next_ungenerated_post s cal with
  | none => s
  | some post => (run_pipeline auditOf genOut fixOut cardOf sitemapOf post s).1

/-- Replace every character outside `[a-z0-9]` by a dash (the per-character
step of `re.sub(r'[^a-z0-9]+', '-', ...)`). -/
def slug_char (c : Char) : Char :=
  if ('a' ≤ c ∧ c ≤ 'z') ∨ ('0' ≤ c ∧ c ≤ '9') then c else '-'

/-- Collapse each run of dashes to a single dash; together with `slug_char`
this embeds `re.sub(r'[^a-z0-9]+', '-', ...)`, which replaces each maximal
run of excluded characters by one dash. -/
def squeeze_dashes : Str → Str
  | [] => []
  | [c] => [c]
  | c :: d :: t =>
    if c = '-' ∧ d = '-' then squeeze_dashes (d :: t) else c :: squeeze_dashes (d :: t)

/-- Python's `str.strip('-')`. -/
def strip_dashes (s : Str) : Str :=
  ((s.dropWhile (fun c => c == '-')).reverse.dropWhile (fun c => c == '-')).reverse

/-- The slug construction of `blog_engine.run_custom_pipeline` (line 1397):
`"blog-" + re.sub(r'[^a-z0-9]+', '-', title.lower()).strip('-')[:80]`. -/
def custom_slug (title : Str) : Str :=
  "blog-".data ++ (strip_dashes (squeeze_dashes ((title.map Char.toLower).map slug_char))).take 80

/-- The post dictionary `run_custom_pipeline` builds (lines 1400-1414). -/
def custom_post (title keywords cluster cta : Str) : Post :=
  { slug := custom_slug title, day := "custom".data, cluster := cluster
  , title_en := title, title_es := title, keywords := keywords, cta := cta }

/-- `blog_engine.run_custom_pipeline` (lines 1391-1425): build a post from
the custom topic and run the shared pipeline on it.  No existence check is
performed before the run.  The dashboard's `/trigger/custom` form handler
and the `/generate-alert/<id>` handler both delegate here. -/
def run_custom_pipeline (auditOf : Str → Audit) (genOut fixOut : Str)
    (cardOf sitemapOf : Post → Str) (title keywords cluster cta : Str)
    (s : PipeState) : PipeState × RunTrace :=
  run_pipeline auditOf genOut fixOut cardOf sitemapOf
    (custom_post title keywords cluster cta) s

/-- `dashboard.approve` (lines 418-459): save the submitted HTML over the
draft when non-empty; then, if a draft exists, copy its content into the
approved store, push to GitHub (an external call whose failure is caught and
does not affect the stores), delete the draft document, and delete the
draft's audit/social/card/sitemap artifacts. -/
def dashboard_approve (formHtml slug : Str) (s : PipeState) : PipeState :=
  let s0 : PipeState :=
    if formHtml ≠ [] then { s with drafts := updateA s.drafts slug formHtml } else s
  match lookupA s0.drafts slug with
  | none => s0
  | some content =>
    { s0 with
      approved := updateA s0.approved slug content
    , drafts := removeA s0.drafts slug
    , draftAudits := removeA s0.draftAudits slug
    , draftSocials := removeA s0.draftSocials slug
    , draftCards := removeA s0.draftCards slug
    , draftSitemaps := removeA s0.draftSitemaps slug }

/-- `blog_engine.approve_and_deploy` (lines 1669-1704): if no draft exists,
return `False`; otherwise write the draft's content into the approved store
and return `True`.  The draft file is *not* removed (the GitHub publish and
the confirmation e-mail are external calls that do not affect the stores). -/
def approve_and_deploy (slug : Str) (s : PipeState) : PipeState × Bool :=
  match lookupA s.drafts slug with
  | none => (s, false)
  | some html => ({ s with approved := updateA s.approved slug html }, true)

/-- `dashboard.reject` (lines 462-471): delete the draft document and the
draft's companion artifacts. -/
def dashboard_reject (slug : Str) (s : PipeState) : PipeState :=
  match lookupA s.drafts slug with
  | none => s
  | some _ =>
    { s with
      drafts := removeA s.drafts slug
    , draftAudits := removeA s.draftAudits slug
    , draftSocials := removeA s.draftSocials slug
    , draftCards := removeA s.draftCards slug
    , draftSitemaps := removeA s.draftSitemaps slug }

/-- An empty file-system state. -/
def emptyState : PipeState :=
  { drafts := [], draftAudits := [], draftSocials := [], draftCards := []
  , draftSitemaps := [], approved := [], preGen := [] }

/-- A clean audit: grade B, publish-ready, no issues of any severity. -/
def cleanAudit : Audit :=
  { overall_grade := "B".data, publish_ready := true, critical_issues := []
  , warnings := [], suggestions := [], raw_response := none }

/-- An audit with one critical issue but contradictory quality fields
(grade A, publish-ready): exercises gating "regardless of overallGrade and
publishReady". -/
def criticalAudit : Audit :=
  { overall_grade := "A".data, publish_ready := true
  , critical_issues := ["outdated filing fee cited".data]
  , warnings := [], suggestions := [], raw_response := none }

/-- A calendar post whose slug has a pre-authored document. -/
def postPre : Post :=
  { slug := "blog-pre".data, day := "monday".data, cluster := "1_act60_compliance".data
  , title_en := "Pre".data, title_es := "Pre".data, keywords := "act60".data
  , cta := "consultation".data }

/-- The pre-authored document for `postPre`. -/
def preDoc : Str := "<!DOCTYPE html><p>pre-authored</p></html>".data

/-- A state whose pre-generated store holds `preDoc` for `postPre`. -/
def statePre : PipeState :=
  { drafts := [], draftAudits := [], draftSocials := [], draftCards := []
  , draftSitemaps := [], approved := [], preGen := [(postPre.slug, preDoc)] }

/-- A calendar post scheduled on a Tuesday. -/
def tuesdayPost : Post :=
  { slug := "blog-tuesday".data, day := "tuesday".data, cluster := "4_tax_strategy".data
  , title_en := "Tue".data, title_es := "Tue".data, keywords := "tax".data
  , cta := "consultation".data }

/-- An existing draft document. -/
def oldDraft : Str := "<!DOCTYPE html><p>old</p></html>".data

/-- A state that already holds a draft for slug `blog-x`. -/
def stateWithDraft : PipeState :=
  { drafts := [("blog-x".data, oldDraft)], draftAudits := [], draftSocials := []
  , draftCards := [], draftSitemaps := [], approved := [], preGen := [] }

/-- A Pass 1 response for the custom run that overwrites `blog-x`. -/
def genResponse : Str := "<!DOCTYPE html><p>new</p></html>".data

/-- A state holding a completed draft (document plus audit) for
`blog-test`, ready for approval. -/
def approveState : PipeState :=
  { drafts := [("blog-test".data, oldDraft)]
  , draftAudits := [("blog-test".data, cleanAudit)]
  , draftSocials := [], draftCards := [], draftSitemaps := []
  , approved := [], preGen := [] }

/-- A state holding a draft for `postPre`'s slug (for the slot-resolver
witness). -/
def stateDraftPre : PipeState :=
  { drafts := [(postPre.slug, oldDraft)], draftAudits := [], draftSocials := []
  , draftCards := [], draftSitemaps := [], approved := [], preGen := [] }

/-- A Pass 1 response wrapped in a fence with prose above and below (the
spec's third end-to-end scenario). -/
def fencedGenResponse : Str :=
  "Here it is:\n```html\n<!DOCTYPE html><p>a</p></html>\n```\nDone.".data

/-- A raw response that contains both markers, but the only end marker
precedes the first start marker. -/
def markersOutOfOrder : Str := "a</html>b<!DOCTYPE htmlc".data

/-- A Pass 3 response carrying no complete document. -/
def fixResponseNoDoc : Str := "I could not produce the corrected file.".data

/-- A two-image pool (one `act60`-themed, one `bitcoin`-themed) for concrete
evaluation of the selector. -/
def samplePool : List HeroImage :=
  [ { id := "img-a".data, url := "https://img/a".data, alt := "alt a".data
    , themes := ["act60".data] }
  , { id := "img-b".data, url := "https://img/b".data, alt := "alt b".data
    , themes := ["bitcoin".data] } ]

theorem lookupA_updateA_self {α : Type} (l : List (Str × α)) (k : Str) (v : α) :
    lookupA (updateA l k v) k = some v := by
  unfold lookupA updateA
  induction l with
  | nil => simp
  | cons a t ih =>
    rw [List.filter_cons]
    by_cases ha : a.1 = k
    · rw [if_neg (by simp [ha])]
      exact ih
    · rw [if_pos (by simp [ha]), List.cons_append, List.find?_cons_of_neg _ (by simp [ha])]
      exact ih

theorem lookupA_updateA_ne {α : Type} (l : List (Str × α)) (k k' : Str) (v : α)
    (h : k' ≠ k) : lookupA (updateA l k v) k' = lookupA l k' := by
  unfold lookupA updateA
  have hk : ¬ k = k' := fun e => h (Eq.symm e)
  induction l with
  | nil => simp [hk]
  | cons a t ih =>
    rw [List.filter_cons]
    by_cases ha : a.1 = k
    · have ha' : ¬ a.1 = k' := fun e => h (Eq.trans (Eq.symm e) ha)
      rw [if_neg (by simp [ha]), List.find?_cons_of_neg _ (by simp [ha'])]
      exact ih
    · rw [if_pos (by simp [ha]), List.cons_append]
      by_cases ha' : a.1 = k'
      · rw [List.find?_cons_of_pos _ (by simp [ha']), List.find?_cons_of_pos _ (by simp [ha'])]
      · rw [List.find?_cons_of_neg _ (by simp [ha']), List.find?_cons_of_neg _ (by simp [ha'])]
        exact ih

theorem get_next_ungenerated_no_artifact (s : PipeState) (cal : List Post) (p : Post)
    (h : get_next_ungenerated_post s cal = some p) :
    artifact_exists s p.slug = false := by
  induction cal with
  | nil => simp [get_next_ungenerated_post] at h
  | cons q t ih =>
    simp only [get_next_ungenerated_post] at h
    cases hq : artifact_exists s q.slug
    · simp [hq] at h
      subst h
      exact hq
    · simp [hq] at h
      exact ih h

theorem run_pipeline_frame (auditOf : Str → Audit) (genOut fixOut : Str)
    (cardOf sitemapOf : Post → Str) (post : Post) (s : PipeState) (slug : Str)
    (h : slug ≠ post.slug) :
    lookupA (run_pipeline auditOf genOut fixOut cardOf sitemapOf post s).1.drafts slug
      = lookupA s.drafts slug
    ∧ (run_pipeline auditOf genOut fixOut cardOf sitemapOf post s).1.approved = s.approved := by
  constructor
  · simp only [run_pipeline]
    split <;> split <;> simp [lookupA_updateA_ne _ _ _ _ h]
  · simp only [run_pipeline]
    split <;> split <;> rfl

theorem scanScheduled_eq (dayName : Str) (s : PipeState) (cal : List Post) :
    scanScheduled dayName s cal = day_filtered_per_spec dayName s cal := by
  induction cal with
  | nil => rfl
  | cons p t ih =>
    simp only [scanScheduled, day_filtered_per_spec, List.filter_cons] at ih ⊢
    by_cases hd : p.day = dayName
    · cases hp : artifact_exists s p.slug <;> simp [hd, hp, ih]
    · simp [hd, ih]

/-- C1 (counterexample): the claim "the Fix pass is invoked if and only if
the persisted audit's criticalIssues list is non-empty" fails in the
pre-authored case.  In this run the persisted audit has one critical issue
(with grade A and publishReady true), yet the Fix pass is not invoked,
because the document was loaded from the pre-generated store. -/
theorem c1_counterexample :
    lookupA (run_pipeline (fun _ => criticalAudit) [] [] (fun _ => []) (fun _ => [])
      postPre statePre).1.draftAudits postPre.slug = some criticalAudit
    ∧ criticalAudit.critical_issues ≠ []
    ∧ (run_pipeline (fun _ => criticalAudit) [] [] (fun _ => []) (fun _ => [])
        postPre statePre).2.fixInvoked = false := by
  decide

/-- C1 (amended): in every pipeline run, the Fix pass is invoked iff the
audit persisted by Pass 2 has a non-empty criticalIssues list *and* the
document was not loaded from the pre-generated store.  In particular, for a
given provenance the decision ignores `overallGrade` and `publishReady`
(the audit function is universally quantified, so every combination of
those fields is covered), and an empty list always skips Fix. -/
theorem c1_fix_gating (auditOf : Str → Audit) (genOut fixOut : Str)
    (cardOf sitemapOf : Post → Str) (post : Post) (s : PipeState) :
    (run_pipeline auditOf genOut fixOut cardOf sitemapOf post s).2.fixInvoked = true
      ↔ ((run_pipeline auditOf genOut fixOut cardOf sitemapOf post s).2.firstAudit.critical_issues ≠ []
         ∧ (run_pipeline auditOf genOut fixOut cardOf sitemapOf post s).2.preAuthored = false) := by
  simp only [run_pipeline]
  simp [Bool.and_eq_true, decide_eq_true_eq, Bool.not_eq_true']

/-- C2: a document loaded from the pre-generated store is never auto-fixed
— whatever the audit reports (including a non-empty criticalIssues list,
since the audit function is universally quantified) the Fix pass is not
invoked, and the document reaches the notification step, and remains in the
drafts store, exactly as loaded. -/
theorem c2_pre_authored_unaltered (auditOf : Str → Audit) (genOut fixOut : Str)
    (cardOf sitemapOf : Post → Str) (post : Post) (s : PipeState) (doc : Str)
    (h : lookupA s.preGen post.slug = some doc) :
    (run_pipeline auditOf genOut fixOut cardOf sitemapOf post s).2.preAuthored = true
    ∧ (run_pipeline auditOf genOut fixOut cardOf sitemapOf post s).2.fixInvoked = false
    ∧ (run_pipeline auditOf genOut fixOut cardOf sitemapOf post s).2.finalHtml = doc
    ∧ lookupA (run_pipeline auditOf genOut fixOut cardOf sitemapOf post s).1.drafts post.slug
        = some doc := by
  simp only [run_pipeline, h]
  simp [lookupA_updateA_self]

/-- C2 (witness): the pre-authored document `preDoc`, audited with one
critical issue, reaches notification unaltered and unfixed. -/
theorem c2_witness :
    (run_pipeline (fun _ => criticalAudit) [] [] (fun _ => []) (fun _ => [])
      postPre statePre).2.preAuthored = true
    ∧ (run_pipeline (fun _ => criticalAudit) [] [] (fun _ => []) (fun _ => [])
        postPre statePre).2.fixInvoked = false
    ∧ (run_pipeline (fun _ => criticalAudit) [] [] (fun _ => []) (fun _ => [])
        postPre statePre).2.finalHtml = preDoc
    ∧ lookupA (run_pipeline (fun _ => criticalAudit) [] [] (fun _ => []) (fun _ => [])
        postPre statePre).1.drafts postPre.slug = some preDoc :=
  c2_pre_authored_unaltered (fun _ => criticalAudit) [] [] (fun _ => []) (fun _ => [])
    postPre statePre preDoc (by decide)

/-- C3: evaluated at the failing input — a state holding a completed draft
for `blog-test` — the CLI approval operation `approve_and_deploy` succeeds
but leaves the draft in place while also writing the approved copy, so both
stores hold a live copy; the dashboard's `approve` route, by contrast,
performs the claimed move (draft and its audit artifact gone, approved copy
present).  This contradicts the claim's "holds for every approval operation
the system exposes" and the source's own `# Move to approved` comment. -/
theorem c3_approval_stores :
    (approve_and_deploy "blog-test".data approveState).2 = true
    ∧ lookupA (approve_and_deploy "blog-test".data approveState).1.drafts "blog-test".data
        = some oldDraft
    ∧ lookupA (approve_and_deploy "blog-test".data approveState).1.approved "blog-test".data
        = some oldDraft
    ∧ lookupA (dashboard_approve [] "blog-test".data approveState).drafts "blog-test".data = none
    ∧ lookupA (dashboard_approve [] "blog-test".data approveState).draftAudits "blog-test".data
        = none
    ∧ lookupA (dashboard_approve [] "blog-test".data approveState).approved "blog-test".data
        = some oldDraft := by
  decide

/-- C4: the audit-response parser tries exactly the three extraction
strategies in order with first success winning — this is the content of
`pass2_parse = audit_per_spec`, where `audit_per_spec` takes the head of
the successful parses of the ordered strategy list — and, being a total
function, never raises; when all three fail the result is the fallback
report with grade UNKNOWN, publishReady false, a single synthetic warning
recording the parse failure, and a raw-text prefix bounded by 3000
characters. -/
theorem c4_parser_strategies (pj : Str → Option Audit) (raw : Str) :
    pass2_parse pj raw = audit_per_spec pj raw
    ∧ (fallback_audit raw).overall_grade = "UNKNOWN".data
    ∧ (fallback_audit raw).publish_ready = false
    ∧ (fallback_audit raw).critical_issues = []
    ∧ (fallback_audit raw).warnings.length = 1
    ∧ (fallback_audit raw).raw_response = some (raw.take 3000)
    ∧ (raw.take 3000).length ≤ 3000 := by
  refine ⟨?_, rfl, rfl, rfl, rfl, rfl, ?_⟩
  · unfold pass2_parse audit_per_spec audit_strategies
    cases hf : fenced_json_block raw with
    | none =>
      cases hb : brace_span raw with
      | none => cases h3 : pj (strat3_clean raw) <;> simp [List.filterMap, h3]
      | some sp =>
        cases h2 : pj sp with
        | some a => simp [List.filterMap, h2]
        | none => cases h3 : pj (strat3_clean raw) <;> simp [List.filterMap, h2, h3]
    | some b =>
      cases h1 : pj (trim b) with
      | some a => simp [List.filterMap, h1]
      | none =>
        cases hb : brace_span raw with
        | none => cases h3 : pj (strat3_clean raw) <;> simp [List.filterMap, h1, h3]
        | some sp =>
          cases h2 : pj sp with
          | some a => simp [List.filterMap, h1, h2]
          | none => cases h3 : pj (strat3_clean raw) <;> simp [List.filterMap, h1, h2, h3]
  · simp [List.length_take]

/-- C5 (counterexample): the custom-topic trigger performs no existence
check.  Starting from a state that already holds a draft for `blog-x`, a
custom run whose title maps to the same slug regenerates the post and
overwrites the existing draft with the newly generated document. -/
theorem c5_counterexample :
    lookupA stateWithDraft.drafts "blog-x".data = some oldDraft
    ∧ (custom_post "x".data "kw".data "4_tax_strategy".data "consultation".data).slug
        = "blog-x".data
    ∧ genResponse ≠ oldDraft
    ∧ lookupA (run_custom_pipeline (fun _ => cleanAudit) genResponse [] (fun _ => [])
        (fun _ => []) "x".data "kw".data "4_tax_strategy".data "consultation".data
        stateWithDraft).1.drafts "blog-x".data = some genResponse := by
  decide

/-- C5 (amended): the calendar-driven triggers (scheduled and manual) never
regenerate: for a slug with an existing draft or approved artifact, the
slot resolver never selects it, and the run leaves that slug's draft
artifact and the whole approved store unchanged.  The custom-topic and
alert-generated triggers perform no existence check (see the
counterexample). -/
theorem c5_calendar_triggers_idempotent (auditOf : Str → Audit) (genOut fixOut : Str)
    (cardOf sitemapOf : Post → Str) (cal : List Post) (s : PipeState) (slug : Str)
    (h : artifact_exists s slug = true) :
    lookupA (run_scheduled_pipeline auditOf genOut fixOut cardOf sitemapOf cal s).drafts slug
      = lookupA s.drafts slug
    ∧ (run_scheduled_pipeline auditOf genOut fixOut cardOf sitemapOf cal s).approved = s.approved
    ∧ lookupA (run_manual_pipeline auditOf genOut fixOut cardOf sitemapOf cal s).drafts slug
      = lookupA s.drafts slug
    ∧ (run_manual_pipeline auditOf genOut fixOut cardOf sitemapOf cal s).approved = s.approved
    ∧ ∀ p, get_next_ungenerated_post s cal = some p → p.slug ≠ slug := by
  have key : ∀ p, get_next_ungenerated_post s cal = some p → p.slug ≠ slug := by
    intro p hp he
    have hna := get_next_ungenerated_no_artifact s cal p hp
    rw [he, h] at hna
    simp at hna
  have sched :
      lookupA (run_scheduled_pipeline auditOf genOut fixOut cardOf sitemapOf cal s).drafts slug
        = lookupA s.drafts slug
      ∧ (run_scheduled_pipeline auditOf genOut fixOut cardOf sitemapOf cal s).approved
        = s.approved := by
    unfold run_scheduled_pipeline
    cases hg : get_next_ungenerated_post s cal with
    | none => exact ⟨rfl, rfl⟩
    | some p =>
      exact run_pipeline_frame auditOf genOut fixOut cardOf sitemapOf p s slug
        (Ne.symm (key p hg))
  have man :
      lookupA (run_manual_pipeline auditOf genOut fixOut cardOf sitemapOf cal s).drafts slug
        = lookupA s.drafts slug
      ∧ (run_manual_pipeline auditOf genOut fixOut cardOf sitemapOf cal s).approved
        = s.approved := by
    unfold run_manual_pipeline
    cases hg : get_next_ungenerated_post s cal with
    | none => exact ⟨rfl, rfl⟩
    | some p =>
      exact run_pipeline_frame auditOf genOut fixOut cardOf sitemapOf p s slug
        (Ne.symm (key p hg))
  exact ⟨sched.1, sched.2, man.1, man.2, key⟩

/-- C5 (witness): with a draft present for `blog-pre`, the scheduled
trigger leaves it untouched and the resolver never selects it. -/
theorem c5_witness :
    artifact_exists stateDraftPre postPre.slug = true
    ∧ (lookupA (run_scheduled_pipeline (fun _ => cleanAudit) genResponse [] (fun _ => [])
        (fun _ => []) [postPre] stateDraftPre).drafts postPre.slug
          = lookupA stateDraftPre.drafts postPre.slug
      ∧ (run_scheduled_pipeline (fun _ => cleanAudit) genResponse [] (fun _ => [])
          (fun _ => []) [postPre] stateDraftPre).approved = stateDraftPre.approved
      ∧ lookupA (run_manual_pipeline (fun _ => cleanAudit) genResponse [] (fun _ => [])
          (fun _ => []) [postPre] stateDraftPre).drafts postPre.slug
          = lookupA stateDraftPre.drafts postPre.slug
      ∧ (run_manual_pipeline (fun _ => cleanAudit) genResponse [] (fun _ => [])
          (fun _ => []) [postPre] stateDraftPre).approved = stateDraftPre.approved
      ∧ ∀ p, get_next_ungenerated_post stateDraftPre [postPre] = some p
          → p.slug ≠ postPre.slug) :=
  ⟨by decide,
   c5_calendar_triggers_idempotent (fun _ => cleanAudit) genResponse [] (fun _ => [])
     (fun _ => []) [postPre] stateDraftPre postPre.slug (by decide)⟩

/-- C6 (counterexample): the day-filtered resolver does not merely restrict
the candidate set to posts whose `day` matches the current weekday — it
first requires the weekday to be in the hard-coded Monday/Wednesday/Friday
map.  On a Tuesday, with a calendar post scheduled for `tuesday` and no
artifacts, the claim's algorithm returns that post but the source returns
`None`. -/
theorem c6_counterexample :
    get_next_scheduled_post "tuesday".data emptyState [tuesdayPost] = none
    ∧ artifact_exists emptyState tuesdayPost.slug = false
    ∧ day_filtered_per_spec "tuesday".data emptyState [tuesdayPost] = some tuesdayPost := by
  decide

/-- C6 (amended): `get_next_ungenerated_post` returns exactly the first
calendar post (fixed calendar order) whose slug has neither a draft nor an
approved artifact, and `none` when every post is generated — this is the
filter-head characterization, which entails both — while the day-filtered
variant returns `none` outright whenever the current weekday is not Monday,
Wednesday or Friday, and on those days restricts the candidate set to
day-matching posts before applying the same existence check. -/
theorem c6_slot_resolution (s : PipeState) (dayName : Str) (cal : List Post) :
    get_next_ungenerated_post s cal = ungenerated_per_spec s cal
    ∧ get_next_scheduled_post dayName s cal
        = (if weekday_in_map dayName then day_filtered_per_spec dayName s cal else none) := by
  constructor
  · induction cal with
    | nil => rfl
    | cons p t ih =>
      simp only [get_next_ungenerated_post, ungenerated_per_spec, List.filter_cons] at ih ⊢
      cases hp : artifact_exists s p.slug <;> simp [hp, ih]
  · unfold get_next_scheduled_post
    cases hw : weekday_in_map dayName <;> simp [hw, scanScheduled_eq]

/-- C7: on rate-limit errors `call_claude` makes at most 3 attempts, and
when every attempt is rate-limited it performs exactly the linearly
increasing backoff sleeps 60 s, 120 s, 180 s and then propagates the
failure to the caller (no result is returned). -/
theorem c7_retry_backoff (service : Nat → ApiOutcome) :
    (call_claude service).calls ≤ 3
    ∧ ((∀ k, k < 3 → service k = ApiOutcome.rateLimited) →
        call_claude service
          = { calls := 3, sleeps := [60, 120, 180], result := none }) := by
  constructor
  · unfold call_claude
    cases h0 : service 0 <;> simp [retry_loop, h0]
    cases h1 : service 1 <;> simp [retry_loop, h1]
    cases h2 : service 2 <;> simp [retry_loop, h2]
  · intro h
    have h0 := h 0 (by omega)
    have h1 := h 1 (by omega)
    have h2 := h 2 (by omega)
    simp [call_claude, retry_loop, h0, h1, h2]

/-- C7 (witness): a service that always rate-limits exhausts the 3 attempts
with sleeps 60 s, 120 s, 180 s and raises. -/
theorem c7_witness :
    call_claude (fun _ => ApiOutcome.rateLimited)
      = { calls := 3, sleeps := [60, 120, 180], result := none } :=
  (c7_retry_backoff (fun _ => ApiOutcome.rateLimited)).2 (fun _ _ => rfl)

/-- C10: when the Fix pass's model response, after fence-stripping,
contains no complete document span, `pass3_fix` returns the original input
HTML unchanged (this also covers the early return for an empty
criticalIssues list). -/
theorem c10_fix_keeps_original (fixResponse html : Str) (audit : Audit)
    (h : extract_document (strip_html_fences fixResponse) = none) :
    pass3_fix fixResponse html audit = html := by
  unfold pass3_fix
  split
  · rfl
  · simp [h]

/-- C10 (witness): a marker-less fix response leaves the draft unchanged
even with critical issues present. -/
theorem c10_witness :
    pass3_fix fixResponseNoDoc oldDraft criticalAudit = oldDraft :=
  c10_fix_keeps_original fixResponseNoDoc oldDraft criticalAudit (by decide)

theorem toLower_of_space (c : Char) (h : isPySpace c = true) : Char.toLower c = c := by
  simp only [isPySpace, Bool.or_eq_true, beq_iff_eq] at h
  rcases h with ((((h | h) | h) | h) | h) | h <;> subst h <;> decide

theorem firstIdxOfSub_prefix (pat : Str) :
    ∀ (s : Str) (i : Nat), firstIdxOfSub pat s = some i → pat <+: s.drop i := by
  intro s
  induction s with
  | nil =>
    intro i h
    unfold firstIdxOfSub at h
    by_cases hp : pat <+: ([] : Str)
    · rw [if_pos hp] at h
      cases h
      simpa using hp
    · rw [if_neg hp] at h
      cases h
  | cons c t ih =>
    intro i h
    unfold firstIdxOfSub at h
    by_cases hp : pat <+: (c :: t)
    · rw [if_pos hp] at h
      cases h
      simpa using hp
    · rw [if_neg hp] at h
      cases hi : firstIdxOfSub pat t with
      | none => rw [hi] at h; cases h
      | some j =>
        rw [hi] at h
        simp only [Option.map_some'] at h
        cases h
        simpa [List.drop_succ_cons] using ih j hi

theorem lastEndOfSub_spec (pat : Str) :
    ∀ (s : Str) (e : Nat), lastEndOfSub pat s = some e →
      pat.length ≤ e ∧ e ≤ s.length ∧ pat <:+ s.take e := by
  intro s
  induction s with
  | nil =>
    intro e h
    unfold lastEndOfSub at h
    by_cases hp : pat = ([] : Str)
    · rw [if_pos hp] at h
      cases h
      subst hp
      exact ⟨Nat.le_refl 0, Nat.le_refl 0, List.nil_suffix⟩
    · rw [if_neg hp] at h
      cases h
  | cons c t ih =>
    intro e h
    unfold lastEndOfSub at h
    cases he : lastEndOfSub pat t with
    | some e2 =>
      rw [he] at h
      cases h
      obtain ⟨h1, h2, h3⟩ := ih e2 he
      refine ⟨Nat.le_succ_of_le h1, by simpa using Nat.succ_le_succ h2, ?_⟩
      rw [List.take_succ_cons]
      exact h3.trans (List.suffix_cons c _)
    | none =>
      rw [he] at h
      by_cases hp : pat <+: (c :: t)
      · rw [if_pos hp] at h
        cases h
        refine ⟨Nat.le_refl _, hp.length_le, ?_⟩
        rw [← List.prefix_iff_eq_take.mp hp]
      · rw [if_neg hp] at h
        cases h

theorem prefix_take_of_le (p l : Str) (n : Nat) (hp : p <+: l) (hn : p.length ≤ n) :
    p <+: l.take n := by
  rw [List.prefix_iff_eq_take] at hp ⊢
  rw [List.take_take, Nat.min_eq_left hn]
  exact hp

theorem suffix_drop_of_le (p l : Str) (k : Nat) (hs : p <:+ l) (hk : k + p.length ≤ l.length) :
    p <:+ l.drop k := by
  obtain ⟨a, rfl⟩ := hs
  have hka : k ≤ a.length := by
    rw [List.length_append] at hk
    omega
  rw [List.drop_append_of_le_length hka]
  exact List.suffix_append _ p

theorem prefix_head_eq (p l : Str) (c : Char) (hp : p <+: l) (hc : p.head? = some c) :
    l.head? = some c := by
  obtain ⟨r, rfl⟩ := hp
  cases p with
  | nil => cases hc
  | cons a t => simpa using hc

theorem dropWhile_eq_self_of_head (p : Char → Bool) :
    ∀ (l : Str), (∀ c, l.head? = some c → p c = false) → l.dropWhile p = l := by
  intro l h
  cases l with
  | nil => rfl
  | cons c t =>
    rw [List.dropWhile_cons, h c rfl]
    simp

theorem trim_eq_self_of_ends (u : Str)
    (h1 : ∀ c, u.head? = some c → isPySpace c = false)
    (h2 : ∀ c, u.reverse.head? = some c → isPySpace c = false) : trim u = u := by
  unfold trim
  rw [dropWhile_eq_self_of_head _ u h1, dropWhile_eq_self_of_head _ u.reverse h2,
      List.reverse_reverse]

theorem nonspace_of_toLower_head (u : Str) (m : Char)
    (hm : (u.map Char.toLower).head? = some m) (hms : isPySpace m = false) :
    ∀ c, u.head? = some c → isPySpace c = false := by
  intro c hc
  rw [List.head?_map, hc] at hm
  simp only [Option.map_some', Option.some.injEq] at hm
  cases hsp : isPySpace c
  · rfl
  · rw [toLower_of_space c hsp] at hm
    rw [hm] at hsp
    rw [hsp] at hms
    cases hms

theorem extract_document_markers (s d : Str) (h : extract_document s = some d) :
    docStartMarker <+: d.map Char.toLower ∧ docEndMarker <:+ d.map Char.toLower := by
  simp only [extract_document] at h
  cases hi : firstIdxOfSub docStartMarker (s.map Char.toLower) with
  | none => rw [hi] at h; cases h
  | some i =>
    rw [hi] at h
    cases he : lastEndOfSub docEndMarker (s.map Char.toLower) with
    | none => rw [he] at h; cases h
    | some e =>
      rw [he] at h
      dsimp only at h
      by_cases hc : i + docStartMarker.length + docEndMarker.length ≤ e
      · rw [if_pos hc] at h
        cases h
        have hlen1 : docStartMarker.length = 14 := by decide
        have hlen2 : docEndMarker.length = 7 := by decide
        rw [hlen1, hlen2] at hc
        obtain ⟨hL1, hL2, hL3⟩ := lastEndOfSub_spec docEndMarker (s.map Char.toLower) e he
        have hpre := firstIdxOfSub_prefix docStartMarker (s.map Char.toLower) i hi
        have hmap : ((s.drop i).take (e - i)).map Char.toLower
            = ((s.map Char.toLower).drop i).take (e - i) := by
          rw [List.map_take, List.map_drop]
        have hA : docStartMarker <+: ((s.drop i).take (e - i)).map Char.toLower := by
          rw [hmap]
          exact prefix_take_of_le _ _ _ hpre (by rw [hlen1]; omega)
        have hB : docEndMarker <:+ ((s.drop i).take (e - i)).map Char.toLower := by
          rw [hmap]
          have hk : i + docEndMarker.length ≤ ((s.map Char.toLower).take e).length := by
            rw [List.length_take, Nat.min_eq_left hL2, hlen2]
            omega
          have := suffix_drop_of_le docEndMarker ((s.map Char.toLower).take e) i hL3 hk
          rwa [List.drop_take] at this
        have h1 := nonspace_of_toLower_head ((s.drop i).take (e - i)) '<'
          (prefix_head_eq _ _ '<' hA (by decide)) (by decide)
        have hrevpre : docEndMarker.reverse <+: (((s.drop i).take (e - i)).map Char.toLower).reverse :=
          List.reverse_prefix.mpr hB
        have hrevmap : (((s.drop i).take (e - i)).map Char.toLower).reverse
            = ((s.drop i).take (e - i)).reverse.map Char.toLower :=
          (List.map_reverse Char.toLower _).symm
        have h2 := nonspace_of_toLower_head ((s.drop i).take (e - i)).reverse '>'
          (prefix_head_eq _ _ '>' (hrevmap ▸ hrevpre) (by decide)) (by decide)
        have htrim := trim_eq_self_of_ends ((s.drop i).take (e - i)) h1 h2
        rw [htrim]
        exact ⟨hA, hB⟩
      · rw [if_neg hc] at h
        cases h

theorem isEmpty_false_ne_nil {α : Type} {l : List α} (h : l.isEmpty = false) : l ≠ [] := by
  cases l
  · cases h
  · simp

theorem get?_mod_isSome (l : List HeroImage) (n : Nat) (h : l ≠ []) :
    (l.get? (n % l.length)).isSome = true := by
  have hl : 0 < l.length := List.length_pos.mpr h
  rw [List.get?_eq_get (Nat.mod_lt n hl)]
  rfl

/-- C8 (counterexample): "whenever both markers are present" is too weak a
premise — in `markersOutOfOrder` both markers occur, but the only end
marker precedes the first start marker, so the extraction fails and the
normalized document is the whole response, which does not start at the
document-start marker. -/
theorem c8_counterexample :
    containsSub docStartMarker (markersOutOfOrder.map Char.toLower) = true
    ∧ containsSub docEndMarker (markersOutOfOrder.map Char.toLower) = true
    ∧ ¬ docStartMarker <+: (pass1_normalize markersOutOfOrder).map Char.toLower := by
  decide

/-- C8 (amended): whenever, after fence-stripping, the document extraction
succeeds — i.e. a document-end marker occurs after the first document-start
marker — the persisted draft is exactly the extracted span from the first
start marker to the last end marker, so it starts with the document-start
marker and ends with the document-end marker (case-insensitively), with no
surrounding prose; when the extraction fails, the whole fence-stripped
response, stripped, is used instead. -/
theorem c8_normalize_markers (raw d : Str)
    (h : extract_document (strip_html_fences raw) = some d) :
    pass1_normalize raw = d
    ∧ docStartMarker <+: d.map Char.toLower
    ∧ docEndMarker <:+ d.map Char.toLower := by
  refine ⟨?_, (extract_document_markers _ _ h).1, (extract_document_markers _ _ h).2⟩
  simp only [pass1_normalize, h]

/-- C8 (witness): a fenced response with prose above and below normalizes
to exactly the marker-delimited document. -/
theorem c8_witness :
    pass1_normalize fencedGenResponse = "<!DOCTYPE html><p>a</p></html>".data
    ∧ docStartMarker <+: ("<!DOCTYPE html><p>a</p></html>".data.map Char.toLower)
    ∧ docEndMarker <:+ ("<!DOCTYPE html><p>a</p></html>".data.map Char.toLower) :=
  c8_normalize_markers fencedGenResponse "<!DOCTYPE html><p>a</p></html>".data (by decide)

/-- C9: the hero-image selector equals the spec's priority-tier description
(first non-empty tier among: category-themed unused, any unused,
category-themed with reuse, whole pool; indexed by the slug hash modulo the
tier size); it is a pure function of (hash, pool, used-set, category,
slug), so two calls with the same slug return the same image; and a
non-empty pool always yields an image. -/
theorem c9_hero_selection (hash : Str → Nat) (pool : List HeroImage) (used : List Str)
    (category slug : Str) :
    select_hero_image hash pool used category slug
      = select_per_spec hash pool used category slug
    ∧ (∀ slug2, slug = slug2 →
        select_hero_image hash pool used category slug
          = select_hero_image hash pool used category slug2)
    ∧ (pool ≠ [] → (select_hero_image hash pool used category slug).isSome = true) := by
  refine ⟨?_, fun slug2 hs => by rw [hs], ?_⟩
  · unfold select_hero_image select_per_spec
    cases h1 : (themed_unused pool used category).isEmpty <;>
      cases h2 : (any_unused pool used).isEmpty <;>
        cases h3 : (all_themed pool category).isEmpty <;>
          cases h4 : pool.isEmpty <;>
            simp [List.find?, h1, h2, h3, h4]
  · intro hp
    unfold select_hero_image
    cases h1 : (themed_unused pool used category).isEmpty
    · simp only [h1, Bool.not_false, if_true]
      exact get?_mod_isSome _ _ (isEmpty_false_ne_nil h1)
    · simp only [h1, Bool.not_true, Bool.false_eq_true, if_false]
      cases h2 : (any_unused pool used).isEmpty
      · simp only [h2, Bool.not_false, if_true]
        exact get?_mod_isSome _ _ (isEmpty_false_ne_nil h2)
      · simp only [h2, Bool.not_true, Bool.false_eq_true, if_false]
        cases h3 : (all_themed pool category).isEmpty
        · simp only [h3, Bool.not_false, if_true]
          exact get?_mod_isSome _ _ (isEmpty_false_ne_nil h3)
        · simp only [h3, Bool.not_true, Bool.false_eq_true, if_false]
          exact get?_mod_isSome _ _ hp

/-- C9 (witness): on the concrete two-image pool the selector returns an
image. -/
theorem c9_witness :
    (select_hero_image (fun s => s.length) samplePool [] "act60".data
      "blog-pre".data).isSome = true :=
  (c9_hero_selection (fun s => s.length) samplePool [] "act60".data
    "blog-pre".data).2.2 (by decide)
